import Mathlib

/-!
Verification of the PyTorch-QuadConv core against its specification.

This file gives a shallow embedding, in Lean 4, of the two numerical
components of the repository:

* `src/core/voxelizer.py` — the `Voxelizer` module (spatial clustering of a
  point cloud into a regular grid, and its lossy inverse);
* `src/torch_quadconv/quadconv.py` — the `QuadConv` operator (bump kernel,
  filter networks, support-index construction, and the quadrature forward
  pass).

Machine floating-point values are modelled by exact rationals `ℚ` wherever the
source compares or quantizes them, and by `ℝ` wherever transcendental
functions (`exp`, `sin`, `sqrt`) are applied.  Fallible tensor operations
(`reshape` with a mismatched element count, fancy indexing out of range,
attribute access on a missing attribute, failed `assert`s) are modelled with
`Option`/`Except`.  Library calls from `torch`, `torch_cluster`,
`torch_geometric` and `torch_scatter` are embedded by their documented
semantics; each such embedding carries a comment naming the library function.
-/

set_option allowUnsafeReducibility true in
attribute [semireducible] Rat.add Rat.mul Rat.inv Rat.sub

/-- `torch.trunc` on an exact rational: rounding toward zero. -/
def truncQ (q : ℚ) : ℤ := if 0 ≤ q then ⌊q⌋ else ⌈q⌉

/-- Integer `d`-th root: the value of `int(n ** (1/d))` in exact real
arithmetic, i.e. the largest `k` with `k ^ d ≤ n` (for `d > 0`, `n ≥ 0`). -/
def idthRoot (n d : ℕ) : ℕ := ((List.range (n + 1)).filter fun k => k ^ d ≤ n).foldr max 0

/-- Quantized coordinates (voxelizer.py line 25):
`coords = torch.trunc(points / (self._voxel_size + 1e-6))`. -/
def voxCoords {N d : ℕ} (pts : Fin N → Fin d → ℚ) (voxelSize : ℚ) : Fin N → Fin d → ℤ :=
  fun p i => truncQ (pts p i / (voxelSize + 1 / 1000000))

/-- Per-dimension minimum of the quantized coordinates (the `start` that
`torch_cluster.grid_cluster` derives from `pos.min(dim=0)`). -/
def coordMin {N d : ℕ} [NeZero N] (coords : Fin N → Fin d → ℤ) (i : Fin d) : ℤ :=
  Finset.univ.inf' (Finset.univ_nonempty) (fun p => coords p i)

/-- Per-dimension maximum of the quantized coordinates (`end` in
`torch_cluster.grid_cluster`). -/
def coordMax {N d : ℕ} [NeZero N] (coords : Fin N → Fin d → ℤ) (i : Fin d) : ℤ :=
  Finset.univ.sup' (Finset.univ_nonempty) (fun p => coords p i)

/-- Number of grid cells along dimension `i` for unit cell size:
`floor((end - start)/size) + 1` with `size = 1`. -/
def cellCount {N d : ℕ} [NeZero N] (coords : Fin N → Fin d → ℤ) (i : Fin d) : ℕ :=
  (coordMax coords i - coordMin coords i).toNat + 1

/-- Embedding of `torch_cluster.grid_cluster(coords, size)` with unit cell
size, as called at voxelizer.py line 26: each point's raw cluster id is the
row-major-style linear index `Σ_i (c_i - start_i) * Π_{i' < i} cellCount i'`
(dimension 0 has stride 1, matching the cumulative-product strides of the
library's kernel). -/
def gridClusterUnit {N d : ℕ} [NeZero N] (coords : Fin N → Fin d → ℤ) : Fin N → ℕ :=
  fun p => ∑ i : Fin d,
    (coords p i - coordMin coords i).toNat * ∏ i' ∈ Finset.Iio i, cellCount coords i'

/-- Raw (pre-relabeling) cluster id of each point, as computed at
voxelizer.py lines 25-26. -/
def rawCluster {N d : ℕ} [NeZero N] (pts : Fin N → Fin d → ℚ) (voxelSize : ℚ) : Fin N → ℕ :=
  gridClusterUnit (voxCoords pts voxelSize)

/-- The ascending list of distinct raw cluster ids.  `torch_geometric`'s
`consecutive_cluster` relabels via `torch.unique(..., return_inverse=True)`,
whose inverse sends each element to its rank in the sorted distinct values. -/
def sortedRawIds {N d : ℕ} [NeZero N] (pts : Fin N → Fin d → ℚ) (voxelSize : ℚ) : List ℕ :=
  ((List.ofFn (rawCluster pts voxelSize)).dedup).insertionSort (· ≤ ·)

/-- The data recorded by `Voxelizer.__init__` (voxelizer.py lines 18-35):
`_num_voxels`, the dense per-point assignment `_indices`, and `_grid_shape`.
`N` is the number of points and `d` the spatial dimension. -/
structure Voxelizer (N d : ℕ) where
  numVoxels : ℕ
  indices : Fin N → ℕ
  gridShape : List ℕ

/-- `Voxelizer.__init__`: raw ids from `grid_cluster`, voxel count
`torch.max(cluster) + 1` (taken from the RAW ids, line 28), dense relabeling
by `consecutive_cluster` (line 30), and the cubic grid shape
`[int(num_voxels ** (1/d))] * d` (line 33).  The source performs no
validation, so construction is total (the source only errors on an empty
point set, which `[NeZero N]` excludes). -/
def voxInit {N d : ℕ} [NeZero N] (pts : Fin N → Fin d → ℚ) (voxelSize : ℚ) : Voxelizer N d :=
  let raw := rawCluster pts voxelSize
  let nv := Finset.univ.sup raw + 1
  { numVoxels := nv
    indices := fun p => (sortedRawIds pts voxelSize).indexOf (raw p)
    gridShape := List.replicate d (idthRoot nv d) }

/-- Embedding of `torch_scatter.scatter(features, indices, dim=2,
dim_size=num_voxels, reduce="mean")` (voxelizer.py line 48): each voxel cell
holds the mean of the features of the points assigned to it, and `0` when no
point is assigned. -/
def scatterMean {N d B C : ℕ} (V : Voxelizer N d) (f : Fin B → Fin C → Fin N → ℚ) :
    Fin B → Fin C → Fin V.numVoxels → ℚ :=
  fun b c m =>
    let cell := Finset.univ.filter (fun p => V.indices p = m.val)
    if cell.card = 0 then 0 else (∑ p ∈ cell, f b c p) / (cell.card : ℚ)

/-- `Voxelizer.voxelize` (voxelizer.py lines 43-50): scatter-mean into
`num_voxels` cells, then `reshape` to `(B, C, *grid_shape)`.  The reshape
raises unless the element count matches, i.e. unless
`grid_shape.prod = num_voxels`; the voxel grid is represented by its
row-major flattening (reshape then flatten is the identity on the data). -/
def Voxelizer.voxelize {N d B C : ℕ} (V : Voxelizer N d) (f : Fin B → Fin C → Fin N → ℚ) :
    Option (Fin B → Fin C → Fin V.gridShape.prod → ℚ) :=
  if h : V.gridShape.prod = V.numVoxels then
    some (fun b c m => scatterMean V f b c ⟨m.val, h ▸ m.isLt⟩)
  else none

/-- `Voxelizer.devoxelize` (voxelizer.py lines 58-63): flatten the spatial
axes (`reshape(B, C, -1)`, always legal) and gather with the stored dense
assignment; the gather raises if some stored id is out of range of the
flattened grid. -/
def Voxelizer.devoxelize {N d B C M : ℕ} (V : Voxelizer N d) (g : Fin B → Fin C → Fin M → ℚ) :
    Option (Fin B → Fin C → Fin N → ℚ) :=
  if h : ∀ p : Fin N, V.indices p < M then
    some (fun b c p => g b c ⟨V.indices p, h p⟩)
  else none

/-! ## Quadrature convolution operator (src/torch_quadconv/quadconv.py) -/

/-- Elementwise difference of two coordinate vectors (an offset `z = x - y`). -/
def vSub (a b : List ℚ) : List ℚ := List.zipWith (· - ·) a b

/-- `torch.linalg.vector_norm(z)`: the Euclidean norm of an offset vector. -/
noncomputable def vectorNormR (z : List ℚ) : ℝ := Real.sqrt ((z.map fun q : ℚ => ((q : ℝ)) ^ 2).sum)

/-- `_bump_arg` (quadconv.py lines 152-153): the norm raised to the 4th power. -/
noncomputable def bumpArgR (z : List ℚ) : ℝ := vectorNormR z ^ 4

/-- `‖z‖⁴` computed exactly in ℚ as `(Σ zᵢ²)²`.  `bumpArgR_eq_cast` below
proves this agrees with the real-arithmetic `_bump_arg`; it makes the
kernel-support test decidable. -/
def bumpArgQ (z : List ℚ) : ℚ := ((z.map fun x => x ^ 2).sum) ^ 2

/-- `_bump` (quadconv.py lines 161-166): `exp(1 - 1/(1 - decay * ‖z‖⁴))`,
computed with no case split — the source has no guard for arguments at or
beyond the support boundary. -/
noncomputable def bump (decayParam : ℚ) (z : List ℚ) : ℝ :=
  Real.exp (1 - 1 / (1 - (decayParam : ℝ) * bumpArgR z))

/-- The `Sin` activation module from `torch_quadconv/utils/misc`. -/
noncomputable def sinAct (x : ℝ) : ℝ := Real.sin x

/-- One `nn.Linear(cin, cout, bias=False)` layer with weight matrix `w`. -/
noncomputable def linearNB (w : ℕ → ℕ → ℝ) (cin cout : ℕ) (x : List ℝ) : List ℝ :=
  (List.range cout).map fun j => ∑ i ∈ Finset.range cin, w j i * x.getD i 0

/-- `_create_mlp` (quadconv.py lines 129-144) applied to one input vector: a
`Linear`+`Sin` pair per intermediate stage of the channel sequence and a
final `Linear`, all bias-free.  `w l` is the weight matrix of the `l`-th
linear layer (the learned parameters; the source draws them at construction,
here they are supplied externally). -/
noncomputable def mlpApply (w : ℕ → ℕ → ℕ → ℝ) : ℕ → List ℕ → List ℝ → List ℝ
  | l, c1 :: c2 :: c3 :: rest, x =>
      mlpApply w (l + 1) (c2 :: c3 :: rest) ((linearNB (w l) c1 c2 x).map sinAct)
  | l, [c1, c2], x => linearNB (w l) c1 c2 x
  | _, _, x => x

/-- `tensor.reshape(-1, a, b)` applied to the row-major flattening `flat` of a
tensor: raises (here `none`) unless `a*b` is nonzero and divides the element
count; otherwise the result is the `(len/(a*b), a, b)` re-indexing. -/
def reshape3 (a b : ℕ) (flat : List ℝ) : Option (List (List (List ℝ))) :=
  if a * b ≠ 0 ∧ a * b ∣ flat.length then
    some ((List.range (flat.length / (a * b))).map fun p =>
      (List.range a).map fun i => (List.range b).map fun j =>
        flat.getD (p * (a * b) + i * b + j) 0)
  else none

/-- The attributes recorded by `QuadConv.__init__` (quadconv.py lines 26-73).
Python's `spatial_dim` is an `int`, so it is modelled by `ℤ` (the constructor
asserts its positivity).  `useBias`/`biasW` model `self.bias` (a xavier-drawn
`(1, out_channels, out_points)` parameter, or `None`); `evalIndices` models
the `self.eval_indices` buffer that exists once `cached` is set. -/
structure QuadConv where
  spatial_dim : ℤ
  in_points : ℕ
  out_points : ℕ
  in_channels : ℕ
  out_channels : ℕ
  output_same : Bool
  cache : Bool
  cached : Bool
  decay_param : ℚ
  filter_seq : List ℕ
  filter_mode : String
  useBias : Bool
  biasW : ℕ → ℕ → ℝ
  evalIndices : ℕ × List (List ℕ)

/-- Keyword arguments of `QuadConv.__init__`, with the source's defaults. -/
structure QuadConvCfg where
  spatial_dim : ℤ
  in_points : ℕ
  out_points : ℕ
  in_channels : ℕ
  out_channels : ℕ
  filter_seq : List ℕ
  filter_mode : String := "single"
  decay_param : Option ℚ := none
  bias : Bool := false
  output_same : Bool := false
  cache : Bool := true

/-- The `ValueError` message raised by `_init_filter` (quadconv.py line 116);
the f-string interpolates the offending mode. -/
def filterModeErrMsg (mode : String) : String :=
  "core::modules::quadconv: Filter mode " ++ mode ++ " is not supported."

/-- `QuadConv.__init__` (quadconv.py lines 26-73): `assert spatial_dim > 0`
(line 43) fires first; the attributes are recorded; the decay parameter
defaults to `(in_points/16)²` (lines 57-61); `_init_filter` (called at line
64) raises `ValueError` for an unsupported filter mode (line 116), in which
case no object is constructed.  `bw` stands for the bias parameter drawn at
lines 67-69. -/
def quadConvInit (cfg : QuadConvCfg) (bw : ℕ → ℕ → ℝ) : Except String QuadConv :=
  if cfg.spatial_dim ≤ 0 then
    Except.error "AssertionError: spatial_dim > 0"
  else if cfg.filter_mode = "single" ∨ cfg.filter_mode = "share_in" ∨
      cfg.filter_mode = "nested" then
    Except.ok
      { spatial_dim := cfg.spatial_dim
        in_points := cfg.in_points
        out_points := cfg.out_points
        in_channels := cfg.in_channels
        out_channels := cfg.out_channels
        output_same := cfg.output_same
        cache := cfg.cache
        cached := false
        decay_param := cfg.decay_param.getD (((cfg.in_points : ℚ) / 16) ^ 2)
        filter_seq := cfg.filter_seq
        filter_mode := cfg.filter_mode
        useBias := cfg.bias
        biasW := bw
        evalIndices := (0, []) }
  else Except.error (filterModeErrMsg cfg.filter_mode)

/-- The filter map `H` built by `_init_filter` (quadconv.py lines 82-116),
applied to a batch `z` of offset vectors (one `List ℝ` per offset); the
result, when defined, is the `(num_offsets, in_channels, out_channels)`
tensor as nested lists.  `w m l` is the weight matrix of layer `l` of
sub-module `m` (mode `single` has the single module `w 0`; mode `nested`
creates one module per (input, output) channel pair, module index
`i * out_channels + j`, and concatenates along dim 0 before reshaping).
Mode `share_in`: the lambda at line 101 reads `self.channels_in` and
`self.channels_out` — attributes `__init__` never assigns (it assigns
`in_channels`/`out_channels`), so evaluating `H` raises `AttributeError`;
modelled by `none`. -/
noncomputable def applyH (qc : QuadConv) (w : ℕ → ℕ → ℕ → ℕ → ℝ) (z : List (List ℝ)) :
    Option (List (List (List ℝ))) :=
  if qc.filter_mode = "single" then
    let spec := qc.spatial_dim.toNat :: (qc.filter_seq ++ [qc.in_channels * qc.out_channels])
    reshape3 qc.in_channels qc.out_channels ((z.map (mlpApply (w 0) 0 spec)).flatten)
  else if qc.filter_mode = "share_in" then none
  else if qc.filter_mode = "nested" then
    let spec := qc.spatial_dim.toNat :: (qc.filter_seq ++ [1])
    reshape3 qc.in_channels qc.out_channels
      (((List.range (qc.in_channels * qc.out_channels)).map fun m =>
        z.map fun zi => (mlpApply (w m) 0 spec zi).getD 0 0).flatten)
  else none

/-- The mesh handle consumed by `QuadConv.forward`.  The `MeshHandler` class
itself is outside the analyzed sources; `forward` only calls its accessors
`input_points()`, `output_points()`, `weights()` and the mutator `step()`.
`level` is the resolution-level cursor that `step()` advances. -/
structure MeshHandle where
  inPts : List (List ℚ)
  outPts : List (List ℚ)
  wts : List ℚ
  level : ℕ

/-- `mesh.step()`: advance the handle to its next resolution level. -/
def MeshHandle.step (m : MeshHandle) : MeshHandle := { m with level := m.level + 1 }

/-- `tf_vec.squeeze()` followed by `torch.nonzero(..., as_tuple=False)`
(quadconv.py lines 191-192).  `tf_vec` has shape `(out_n, in_n, 1)` before
the squeeze, which drops EVERY axis of size 1; `nonzero` then returns one
row per true entry, in row-major order, with arity equal to the rank of the
squeezed tensor.  The first component records that rank. -/
def nonzeroSqueezed (outN inN : ℕ) (tf : ℕ → ℕ → Bool) : ℕ × List (List ℕ) :=
  if outN ≠ 1 ∧ inN ≠ 1 then
    (2, ((List.range outN).map fun i =>
          ((List.range inN).filter fun j => tf i j).map fun j => [i, j]).flatten)
  else if outN = 1 ∧ inN ≠ 1 then
    (1, ((List.range inN).filter fun j => tf 0 j).map fun j => [j])
  else if outN ≠ 1 ∧ inN = 1 then
    (1, ((List.range outN).filter fun i => tf i 0).map fun i => [i])
  else
    (0, if tf 0 0 then [[]] else [])

/-- `_compute_eval_indices` (quadconv.py lines 174-208): select the point
sets (the input set twice when `output_same`), `assert` they have the
configured sizes (modelled by `none` on failure), form the pairwise offsets
and return the nonzero positions of `bump_arg <= 1/decay_param`.  The
support test is evaluated exactly in ℚ; `bumpArgR_eq_cast` and `Rat.cast_le`
prove this agrees with the source's real-arithmetic comparison. -/
def computeEvalIndices (qc : QuadConv) (mesh : MeshHandle) : Option (ℕ × List (List ℕ)) :=
  let inputPoints := mesh.inPts
  let outputPoints := if qc.output_same then mesh.inPts else mesh.outPts
  if inputPoints.length = qc.in_points ∧ outputPoints.length = qc.out_points then
    some (nonzeroSqueezed outputPoints.length inputPoints.length fun i j =>
      decide (bumpArgQ (vSub (outputPoints.getD i []) (inputPoints.getD j []))
        ≤ 1 / qc.decay_param))
  else none

/-- The observable steps of one `QuadConv.forward` call, in source order. -/
inductive QEvent where
  | computeIndices
  | weightsLookup
  | meshStep
  | filterEval
  | scatterAdd
deriving DecidableEq

/-- `QuadConv.forward` (quadconv.py lines 219-256).  Returns the ordered list
of observable events the call performed, and — unless the call raises — the
`(batch, out_channels, out_points)` output (nested lists, value level)
together with the possibly advanced mesh handle.  `w` supplies the
filter-network weights.  Torch raises are modelled by `none`: a failed
size `assert` inside `_compute_eval_indices`; `weights()[eval_indices[:,1]]`
when the index tensor has no column 1 (rank < 2) or an id exceeds the weight
vector; the point gathers behind `eval_locs` (line 231-234, before
`mesh.step()`); the `AttributeError` of mode `share_in` inside `self.G`; and
`scatter_add_` with an out-of-range output index.  The bias add (`integral
+= self.bias`, broadcast over the batch axis) is fused pointwise into the
construction of `integral`. -/
noncomputable def QuadConv.forward (qc : QuadConv) (w : ℕ → ℕ → ℕ → ℕ → ℝ) (mesh : MeshHandle)
    (features : List (List (List ℚ))) :
    List QEvent × Option (List (List (List ℝ)) × MeshHandle) :=
  let ev1 : List QEvent := if qc.cached then [] else [QEvent.computeIndices]
  match (if qc.cached then some qc.evalIndices else computeEvalIndices qc mesh) with
  | none => (ev1, none)
  | some (rank, idx) =>
    if rank < 2 ∨ ¬ (idx.all fun row => decide (row.getD 1 0 < mesh.wts.length)) then
      (ev1, none)
    else
      let wvals : List ℚ := idx.map fun row => mesh.wts.getD (row.getD 1 0) 0
      let ev2 := ev1 ++ [QEvent.weightsLookup]
      let srcOut := if qc.output_same then mesh.inPts else mesh.outPts
      if ¬ (idx.all fun row =>
          decide (row.getD 0 0 < srcOut.length ∧ row.getD 1 0 < mesh.inPts.length)) then
        (ev2, none)
      else
        let evalLocs : List (List ℝ) := idx.map fun row =>
          (vSub (srcOut.getD (row.getD 0 0) []) (mesh.inPts.getD (row.getD 1 0) [])).map
            fun q : ℚ => ((q : ℝ))
        let mesh2 := if qc.output_same then mesh else mesh.step
        let ev3 := if qc.output_same then ev2 else ev2 ++ [QEvent.meshStep]
        match applyH qc w evalLocs with
        | none => (ev3, none)
        | some filts =>
          let ev4 := ev3 ++ [QEvent.filterEval]
          if ¬ (idx.all fun row => decide (row.getD 0 0 < qc.out_points)) then (ev4, none)
          else
            let integral := (List.range features.length).map fun b =>
              (List.range qc.out_channels).map fun jc =>
                (List.range qc.out_points).map fun p =>
                  (((List.range idx.length).filter fun n =>
                      (idx.getD n []).getD 0 0 = p).map fun n =>
                    ((wvals.getD n 0 : ℚ) : ℝ) *
                      ∑ i ∈ Finset.range qc.in_channels,
                        bump qc.decay_param
                            (vSub (srcOut.getD ((idx.getD n []).getD 0 0) [])
                              (mesh.inPts.getD ((idx.getD n []).getD 1 0) []))
                          * (((filts.getD n []).getD i []).getD jc 0)
                          * ((((features.getD b []).getD i []).getD
                              ((idx.getD n []).getD 1 0) 0 : ℚ) : ℝ)).sum
                  + (if qc.useBias then qc.biasW jc p else 0)
            (ev4 ++ [QEvent.scatterAdd], some (integral, mesh2))

/-! ## Concrete data used by scenario claims, counterexamples and witnesses -/

/-- Shape predicate for a value-level rank-3 tensor (nested lists). -/
def hasShape3 (t : List (List (List ℝ))) (n a b : ℕ) : Prop :=
  t.length = n ∧ ∀ u ∈ t, u.length = a ∧ ∀ v ∈ u, v.length = b

instance (t : List (List (List ℝ))) (n a b : ℕ) : Decidable (hasShape3 t n a b) :=
  inferInstanceAs (Decidable (t.length = n ∧ ∀ u ∈ t, u.length = a ∧ ∀ v ∈ u, v.length = b))

noncomputable instance : Inhabited QuadConv :=
  ⟨{ spatial_dim := 1, in_points := 0, out_points := 0, in_channels := 0, out_channels := 0,
     output_same := false, cache := true, cached := false, decay_param := 0, filter_seq := [],
     filter_mode := "single", useBias := false, biasW := fun _ _ => 0, evalIndices := (0, []) }⟩

/-- A fixed assignment of filter-network weights (the source draws them
randomly; every shape-level statement below holds for any assignment). -/
noncomputable def w0 : ℕ → ℕ → ℕ → ℕ → ℝ := fun _ _ _ _ => 0

/-- A fixed bias parameter assignment. -/
noncomputable def bw0 : ℕ → ℕ → ℝ := fun _ _ => 0

/-- The spec's §8 scenario: 4 points in 1D at `[0.0, 0.05, 1.0, 1.05]`. -/
def ptsC5 : Fin 4 → Fin 1 → ℚ := ![![0], ![1/20], ![1], ![21/20]]

/-- The scenario's feature array `[1, 1, 5, 5]` (batch 1, channel 1). -/
def feats5 : Fin 1 → Fin 1 → Fin 4 → ℚ := fun _ _ p => ([1, 1, 5, 5] : List ℚ).getD p.val 0

/-- Two 2-D points whose quantized cells are 3 voxels apart along axis 0:
`grid_cluster` yields raw ids `{0, 2}`, so `num_voxels = 3`, which is not a
perfect square. -/
def ptsC2 : Fin 2 → Fin 2 → ℚ := ![![0, 0], ![3, 0]]

/-- Two 1-D points five cells apart: raw ids `{0, 4}`, `num_voxels = 5`, but
only 2 distinct dense ids. -/
def pts10 : Fin 2 → Fin 1 → ℚ := ![![0], ![5]]

/-- A `QuadConv` configuration: mode `single`, 1D, 2→2 points, 2→3 channels. -/
def cfgSingleA : QuadConvCfg :=
  { spatial_dim := 1, in_points := 2, out_points := 2, in_channels := 2, out_channels := 3,
    filter_seq := [4], filter_mode := "single", decay_param := some 1, bias := false,
    output_same := false, cache := true }

/-- Same configuration with mode `nested`. -/
def cfgNestedA : QuadConvCfg := { cfgSingleA with filter_mode := "nested" }

/-- Same configuration with mode `share_in`. -/
def cfgShareInA : QuadConvCfg := { cfgSingleA with filter_mode := "share_in" }

/-- Same configuration with `output_same := true`. -/
def cfgSameA : QuadConvCfg := { cfgSingleA with output_same := true }

/-- A mesh handle for `cfgSingleA`-family operators: input points `0, 1`,
output points `100, 200` (far outside kernel support for decay 1), unit
quadrature weights. -/
def meshA : MeshHandle :=
  { inPts := [[0], [1]], outPts := [[100], [200]], wts := [1, 1], level := 0 }

/-- A feature batch shaped `(1, 2, 2)` for the `cfgSingleA` family. -/
def featsA : List (List (List ℚ)) := [[[1, 1], [2, 2]]]

/-- Configuration with `out_points = 1`, exhibiting the `squeeze()` rank
collapse in `_compute_eval_indices`. -/
def cfgOut1 : QuadConvCfg :=
  { spatial_dim := 1, in_points := 2, out_points := 1, in_channels := 1, out_channels := 1,
    filter_seq := [], filter_mode := "single", decay_param := some 1, bias := false,
    output_same := false, cache := true }

/-- Mesh for `cfgOut1`: all points at the origin, so every pair is inside the
kernel support. -/
def meshOut1 : MeshHandle := { inPts := [[0], [0]], outPts := [[0]], wts := [1, 1], level := 0 }

/-- 2→2-point configuration for the support-index witness (1 channel). -/
def cfgPairs : QuadConvCfg :=
  { spatial_dim := 1, in_points := 2, out_points := 2, in_channels := 1, out_channels := 1,
    filter_seq := [], filter_mode := "single", decay_param := some 1, bias := false,
    output_same := false, cache := true }

/-- Mesh for `cfgPairs`: offsets `0, -1, 3, 2` give `‖z‖⁴ = 0, 1, 81, 16`, so
exactly the pairs `(0,0)` and `(0,1)` are within support `≤ 1`. -/
def meshPairs : MeshHandle :=
  { inPts := [[0], [1]], outPts := [[0], [3]], wts := [1, 1], level := 0 }

/-- The concrete operators obtained from the configurations above (the
constructor succeeds on all of them). -/
noncomputable def qcSingleA : QuadConv := (quadConvInit cfgSingleA bw0).toOption.getD default

/-- `cfgNestedA`'s operator. -/
noncomputable def qcNestedA : QuadConv := (quadConvInit cfgNestedA bw0).toOption.getD default

/-- `cfgShareInA`'s operator. -/
noncomputable def qcShareInA : QuadConv := (quadConvInit cfgShareInA bw0).toOption.getD default

/-- `cfgSameA`'s operator. -/
noncomputable def qcSameA : QuadConv := (quadConvInit cfgSameA bw0).toOption.getD default

/-- `cfgOut1`'s operator. -/
noncomputable def qcOut1 : QuadConv := (quadConvInit cfgOut1 bw0).toOption.getD default

/-- `cfgPairs`'s operator. -/
noncomputable def qcPairs : QuadConv := (quadConvInit cfgPairs bw0).toOption.getD default

/-- An invalid configuration: non-positive spatial dimension. -/
def cfgBadDim : QuadConvCfg := { cfgSingleA with spatial_dim := 0 }

/-- An invalid configuration: unsupported filter mode string. -/
def cfgBadMode : QuadConvCfg := { cfgSingleA with filter_mode := "fancy" }

/-! ## Supporting lemmas -/

theorem mem_sortedRawIds {N d : ℕ} [NeZero N] (pts : Fin N → Fin d → ℚ) (vs : ℚ) (a : ℕ) :
    a ∈ sortedRawIds pts vs ↔ ∃ p, rawCluster pts vs p = a := by
  unfold sortedRawIds
  rw [(List.perm_insertionSort _ _).mem_iff, List.mem_dedup, List.mem_ofFn]
  simp [Set.mem_range, eq_comm]

theorem sortedRawIds_nodup {N d : ℕ} [NeZero N] (pts : Fin N → Fin d → ℚ) (vs : ℚ) :
    (sortedRawIds pts vs).Nodup :=
  (List.perm_insertionSort _ _).nodup_iff.2 (List.nodup_dedup _)

theorem length_sortedRawIds {N d : ℕ} [NeZero N] (pts : Fin N → Fin d → ℚ) (vs : ℚ) :
    (sortedRawIds pts vs).length = (Finset.image (rawCluster pts vs) Finset.univ).card := by
  rw [← List.toFinset_card_of_nodup (sortedRawIds_nodup pts vs)]
  congr 1
  ext a
  simp only [List.mem_toFinset, Finset.mem_image, Finset.mem_univ, true_and]
  rw [mem_sortedRawIds]

theorem card_rawImage_le {N d : ℕ} [NeZero N] (pts : Fin N → Fin d → ℚ) (vs : ℚ) :
    (Finset.image (rawCluster pts vs) Finset.univ).card ≤
      Finset.univ.sup (rawCluster pts vs) + 1 := by
  have hsub : Finset.image (rawCluster pts vs) Finset.univ ⊆
      Finset.range (Finset.univ.sup (rawCluster pts vs) + 1) := by
    intro a ha
    rw [Finset.mem_range, Nat.lt_succ_iff]
    rcases Finset.mem_image.1 ha with ⟨p, _, rfl⟩
    exact Finset.le_sup (Finset.mem_univ p)
  simpa using Finset.card_le_card hsub

theorem voxIndices_lt {N d : ℕ} [NeZero N] (pts : Fin N → Fin d → ℚ) (vs : ℚ) (p : Fin N) :
    (voxInit pts vs).indices p < (voxInit pts vs).numVoxels := by
  have hmem : rawCluster pts vs p ∈ sortedRawIds pts vs :=
    (mem_sortedRawIds pts vs _).2 ⟨p, rfl⟩
  have h1 : (sortedRawIds pts vs).indexOf (rawCluster pts vs p) < (sortedRawIds pts vs).length :=
    List.indexOf_lt_length.2 hmem
  calc (voxInit pts vs).indices p < (sortedRawIds pts vs).length := h1
    _ = (Finset.image (rawCluster pts vs) Finset.univ).card := length_sortedRawIds pts vs
    _ ≤ Finset.univ.sup (rawCluster pts vs) + 1 := card_rawImage_le pts vs
    _ = (voxInit pts vs).numVoxels := rfl

theorem scatterMean_const {N d B C : ℕ} (V : Voxelizer N d) (v : ℚ) (b : Fin B) (c : Fin C)
    (m : Fin V.numVoxels) (p : Fin N) (hp : V.indices p = m.val) :
    scatterMean V (fun _ _ _ => v) b c m = v := by
  unfold scatterMean
  have hne : (Finset.univ.filter fun q => V.indices q = m.val).Nonempty :=
    ⟨p, by simp [hp]⟩
  have hcard : (Finset.univ.filter fun q => V.indices q = m.val).card ≠ 0 :=
    Nat.pos_iff_ne_zero.1 (Finset.card_pos.2 hne)
  simp only [hcard, if_false, Finset.sum_const, nsmul_eq_mul]
  exact mul_div_cancel_left₀ v (Nat.cast_ne_zero.2 hcard)

/-! ## Claims about the Voxelizer -/

/-- C2 (counterexample): on the two 2-D points `ptsC2` the claim "construction
fails fast whenever the hypercube shape does not reconstruct the voxel count"
is false: `Voxelizer.__init__` performs no such check, so construction
succeeds and records `num_voxels = 3` with grid shape `[1, 1]`, whose product
does not reconstruct the voxel count. -/
theorem voxelizer_construction_no_failfast :
    (voxInit ptsC2 1).numVoxels = 3 ∧ (voxInit ptsC2 1).gridShape = [1, 1] ∧
      (voxInit ptsC2 1).gridShape.prod ≠ (voxInit ptsC2 1).numVoxels := by decide

/-- C2 (amended): construction always derives the grid shape
`replicate d (idthRoot num_voxels d)` and never fails; the fail-fast happens
at `voxelize` time instead — its `reshape` succeeds exactly when the
hypercube shape reconstructs the recorded voxel count, so data is never
silently truncated. -/
theorem voxelizer_gridShape_reshape {N d B C : ℕ} [NeZero N] (pts : Fin N → Fin d → ℚ)
    (vs : ℚ) (f : Fin B → Fin C → Fin N → ℚ) :
    (voxInit pts vs).gridShape = List.replicate d (idthRoot (voxInit pts vs).numVoxels d)
    ∧ (((voxInit pts vs).voxelize f).isSome ↔
        idthRoot (voxInit pts vs).numVoxels d ^ d = (voxInit pts vs).numVoxels) := by
  refine ⟨rfl, ?_⟩
  have hprod : (voxInit pts vs).gridShape.prod = idthRoot (voxInit pts vs).numVoxels d ^ d :=
    List.prod_replicate d _
  unfold Voxelizer.voxelize
  by_cases h : (voxInit pts vs).gridShape.prod = (voxInit pts vs).numVoxels
  · rw [dif_pos h]
    simp [← hprod, h]
  · rw [dif_neg h]
    simp [← hprod, h]

/-- C2 (witness): the 1-D scenario voxelizer has grid shape `[6]` with
`6 ^ 1 = 6 = num_voxels`, so `voxelize` succeeds on it. -/
theorem voxelizer_gridShape_reshape_witness :
    (voxInit ptsC5 (1/5)).gridShape =
        List.replicate 1 (idthRoot (voxInit ptsC5 (1/5)).numVoxels 1)
    ∧ (((voxInit ptsC5 (1/5)).voxelize feats5).isSome ↔
        idthRoot (voxInit ptsC5 (1/5)).numVoxels 1 ^ 1 = (voxInit ptsC5 (1/5)).numVoxels) :=
  voxelizer_gridShape_reshape ptsC5 (1/5) feats5

/-- C5 (counterexample): in the spec's §8 scenario the dense cluster ids do
NOT collapse to 2 ids grouping `{0,1}` and `{2,3}`: `trunc(1.0/0.200001) = 4`
but `trunc(1.05/0.200001) = 5`, so points 2 and 3 fall in different cells and
there are 3 distinct dense ids, with points 2 and 3 assigned different ids. -/
theorem voxelizer_scenario_counterexample :
    (Finset.image (voxInit ptsC5 (1/5)).indices Finset.univ).card = 3
    ∧ (voxInit ptsC5 (1/5)).indices 2 ≠ (voxInit ptsC5 (1/5)).indices 3 := by decide

/-- C5 (amended): on points `[0, 0.05, 1, 1.05]` with voxel size `0.2` the
dense ids are `[0, 0, 1, 2]` (3 distinct ids grouping `{0,1}`, `{2}`, `{3}`),
the recorded voxel count is 6, `voxelize` of features `[1,1,5,5]` yields the
6-cell grid `[1, 5, 5, 0, 0, 0]` (slots 3-5 have no points), and
`devoxelize` of that result reconstructs `[1, 1, 5, 5]`. -/
theorem voxelizer_scenario :
    (voxInit ptsC5 (1/5)).indices = ![0, 0, 1, 2]
    ∧ (voxInit ptsC5 (1/5)).numVoxels = 6
    ∧ ((voxInit ptsC5 (1/5)).voxelize feats5).map (fun g => List.ofFn (g 0 0))
        = some [1, 5, 5, 0, 0, 0]
    ∧ (((voxInit ptsC5 (1/5)).voxelize feats5).bind (voxInit ptsC5 (1/5)).devoxelize).map
        (fun f => List.ofFn (f 0 0)) = some [1, 1, 5, 5] := by decide

/-- C6 (counterexample): the round trip is not defined on every constructed
voxelizer: on `ptsC2`'s voxelizer (3 voxels, grid shape `[1,1]`) `voxelize`
of the constant-1 feature array raises (the reshape fails), so
`devoxelize (voxelize features)` does not return the constant array. -/
theorem voxelizer_roundtrip_counterexample :
    (voxInit ptsC2 1).voxelize (fun (_ : Fin 1) (_ : Fin 1) _ => (1 : ℚ)) = none := by decide

/-- C6 (amended): for every constructed voxelizer whose grid shape
reconstructs the voxel count (so that `voxelize`'s reshape succeeds) and
every constant feature array, `devoxelize (voxelize features)` returns the
same constant array. -/
theorem voxelizer_roundtrip_const {N d B C : ℕ} [NeZero N] (pts : Fin N → Fin d → ℚ) (vs : ℚ)
    (h : (voxInit pts vs).gridShape.prod = (voxInit pts vs).numVoxels) (v : ℚ) :
    ((voxInit pts vs).voxelize (fun (_ : Fin B) (_ : Fin C) _ => v)).bind
      (voxInit pts vs).devoxelize = some (fun _ _ _ => v) := by
  unfold Voxelizer.voxelize
  rw [dif_pos h, Option.some_bind]
  unfold Voxelizer.devoxelize
  have hlt : ∀ p : Fin N, (voxInit pts vs).indices p < (voxInit pts vs).gridShape.prod := by
    intro p; rw [h]; exact voxIndices_lt pts vs p
  rw [dif_pos hlt]
  congr 1
  funext b c p
  exact scatterMean_const _ v b c _ p rfl

/-- C6 (witness): the round trip on the scenario voxelizer and the constant
array of value 7 returns the constant array of value 7. -/
theorem voxelizer_roundtrip_const_witness :
    ((voxInit ptsC5 (1/5)).gridShape.prod = (voxInit ptsC5 (1/5)).numVoxels)
    ∧ ((voxInit ptsC5 (1/5)).voxelize (fun (_ : Fin 1) (_ : Fin 1) _ => (7 : ℚ))).bind
        (voxInit ptsC5 (1/5)).devoxelize = some (fun _ _ _ => (7 : ℚ)) :=
  ⟨by decide, voxelizer_roundtrip_const ptsC5 (1/5) (by decide) 7⟩

/-- C10: for every constructed voxelizer, the recorded voxel count is one plus
the maximum RAW (pre-relabeling) cluster id; every stored dense id lies in
`[0, num_voxels)`; dense ids agree exactly when raw ids agree; voxel slots no
point maps to scatter to zero; and on `pts10` (two points five cells apart)
the voxel count 5 strictly exceeds the 2 distinct dense ids, slot 2 being
unmapped. -/
theorem voxelizer_numVoxels_invariants {N d : ℕ} [NeZero N] (pts : Fin N → Fin d → ℚ)
    (vs : ℚ) :
    (voxInit pts vs).numVoxels = Finset.univ.sup (rawCluster pts vs) + 1
    ∧ (∀ p, (voxInit pts vs).indices p < (voxInit pts vs).numVoxels)
    ∧ (∀ p q, (voxInit pts vs).indices p = (voxInit pts vs).indices q ↔
        rawCluster pts vs p = rawCluster pts vs q)
    ∧ (∀ (B C : ℕ) (f : Fin B → Fin C → Fin N → ℚ) (b : Fin B) (c : Fin C)
        (m : Fin (voxInit pts vs).numVoxels),
        (∀ p, (voxInit pts vs).indices p ≠ m.val) → scatterMean (voxInit pts vs) f b c m = 0)
    ∧ ((voxInit pts10 1).numVoxels = 5
        ∧ (Finset.image (voxInit pts10 1).indices Finset.univ).card = 2
        ∧ ∀ p, (voxInit pts10 1).indices p ≠ 2) := by
  refine ⟨rfl, voxIndices_lt pts vs, ?_, ?_, by decide⟩
  · intro p q
    exact List.indexOf_inj ((mem_sortedRawIds pts vs _).2 ⟨p, rfl⟩)
      ((mem_sortedRawIds pts vs _).2 ⟨q, rfl⟩)
  · intro B C f b c m hm
    unfold scatterMean
    have hempty : (Finset.univ.filter fun p => (voxInit pts vs).indices p = m.val) = ∅ := by
      ext p; simp [hm p]
    simp [hempty]

/-- C10 (witness): the invariants instantiated on the `pts10` voxelizer. -/
theorem voxelizer_numVoxels_invariants_witness :
    (voxInit pts10 1).numVoxels = Finset.univ.sup (rawCluster pts10 1) + 1
    ∧ (∀ p, (voxInit pts10 1).indices p < (voxInit pts10 1).numVoxels)
    ∧ (∀ p q, (voxInit pts10 1).indices p = (voxInit pts10 1).indices q ↔
        rawCluster pts10 1 p = rawCluster pts10 1 q)
    ∧ (∀ (B C : ℕ) (f : Fin B → Fin C → Fin 2 → ℚ) (b : Fin B) (c : Fin C)
        (m : Fin (voxInit pts10 1).numVoxels),
        (∀ p, (voxInit pts10 1).indices p ≠ m.val) → scatterMean (voxInit pts10 1) f b c m = 0)
    ∧ ((voxInit pts10 1).numVoxels = 5
        ∧ (Finset.image (voxInit pts10 1).indices Finset.univ).card = 2
        ∧ ∀ p, (voxInit pts10 1).indices p ≠ 2) :=
  voxelizer_numVoxels_invariants pts10 1

/-! ## Claims about the bump kernel -/

theorem castSumSq (z : List ℚ) :
    (((z.map fun x => x ^ 2).sum : ℚ) : ℝ) = (z.map fun q : ℚ => ((q : ℝ)) ^ 2).sum := by
  rw [show (((z.map fun x => x ^ 2).sum : ℚ) : ℝ)
        = (Rat.castHom ℝ) ((z.map fun x => x ^ 2).sum) from rfl,
    map_list_sum, List.map_map]
  refine congrArg List.sum (List.map_congr_left fun q _ => ?_)
  simp [Function.comp]

theorem bumpArgR_eq_cast (z : List ℚ) : bumpArgR z = ((bumpArgQ z : ℚ) : ℝ) := by
  unfold bumpArgR vectorNormR bumpArgQ
  have hnn : (0 : ℝ) ≤ (z.map fun q : ℚ => ((q : ℝ)) ^ 2).sum :=
    List.sum_nonneg fun x hx => by
      rcases List.mem_map.1 hx with ⟨q, _, rfl⟩; positivity
  have h4 : Real.sqrt ((z.map fun q : ℚ => ((q : ℝ)) ^ 2).sum) ^ 4
      = ((z.map fun q : ℚ => ((q : ℝ)) ^ 2).sum) ^ 2 := by
    rw [show (4 : ℕ) = 2 * 2 from rfl, pow_mul, Real.sq_sqrt hnn]
  rw [h4, Rat.cast_pow, castSumSq]

/-- C1 (counterexample): at decay 1 and offset `z = [2]` (so `‖z‖⁴ = 16 ≥ 1`)
the bump kernel does NOT evaluate to 0: `_bump` computes
`exp(1 - 1/(1 - decay·r))` with no branch, which at `decay·r = 16` is the
positive value `exp(1 + 1/15)`. -/
theorem bump_beyond_support_nonzero :
    (1 : ℝ) ≤ ((1 : ℚ) : ℝ) * bumpArgR [(2 : ℚ)] ∧ bump 1 [(2 : ℚ)] ≠ 0 := by
  have h : bumpArgR [(2 : ℚ)] = 16 := by
    rw [bumpArgR_eq_cast]
    norm_num [bumpArgQ]
  exact ⟨by rw [h]; norm_num, Real.exp_ne_zero _⟩

/-- C1 (amended): for positive decay, the bump kernel evaluates to
`exp(1 - 1/(1 - decay·r))` (with `r = ‖z‖⁴`) whenever `decay·r < 1`, and this
value is strictly positive; since the source computes the same formula with
no branch, for `decay·r > 1` the kernel evaluates to the NONZERO value
`exp(1 + 1/(decay·r - 1))` rather than to 0 (the support filtering in
`_compute_eval_indices`, not a guard in `_bump`, is what keeps evaluation
inside the support). -/
theorem bump_kernel_values (decay : ℚ) (z : List ℚ) (_hd : 0 < decay) :
    ((decay : ℝ) * bumpArgR z < 1 →
      bump decay z = Real.exp (1 - 1 / (1 - (decay : ℝ) * bumpArgR z)) ∧ 0 < bump decay z)
    ∧ (1 < (decay : ℝ) * bumpArgR z →
      bump decay z = Real.exp (1 + 1 / ((decay : ℝ) * bumpArgR z - 1)) ∧ bump decay z ≠ 0) := by
  refine ⟨fun _ => ⟨rfl, Real.exp_pos _⟩, fun hgt => ⟨?_, Real.exp_ne_zero _⟩⟩
  unfold bump
  congr 1
  have h1 : (1 : ℝ) - (decay : ℝ) * bumpArgR z = -((decay : ℝ) * bumpArgR z - 1) := by ring
  rw [h1, div_neg, sub_neg_eq_add]

/-- C1 (witness): the amended statement instantiated at decay 1, `z = [1/2]`
(inside support: `‖z‖⁴ = 1/16 < 1`). -/
theorem bump_kernel_values_witness :
    (0 : ℚ) < 1 ∧
    ((((1 : ℚ) : ℝ) * bumpArgR [(1 : ℚ)/2] < 1 →
      bump 1 [(1 : ℚ)/2]
          = Real.exp (1 - 1 / (1 - ((1 : ℚ) : ℝ) * bumpArgR [(1 : ℚ)/2]))
        ∧ 0 < bump 1 [(1 : ℚ)/2])
    ∧ (1 < ((1 : ℚ) : ℝ) * bumpArgR [(1 : ℚ)/2] →
      bump 1 [(1 : ℚ)/2]
          = Real.exp (1 + 1 / (((1 : ℚ) : ℝ) * bumpArgR [(1 : ℚ)/2] - 1))
        ∧ bump 1 [(1 : ℚ)/2] ≠ 0)) :=
  ⟨by decide, bump_kernel_values 1 [(1 : ℚ)/2] (by decide)⟩

/-! ## Claims about QuadConv construction and filters -/

/-- C9: construction with a non-positive spatial dimension raises (the
`assert` at line 43), and construction with an unsupported filter mode string
raises the `ValueError` of line 116, whose message interpolates (names) the
invalid mode; both fire during construction, so no operator object — and
hence no forward computation — can exist. -/
theorem quadconv_construction_errors (cfg : QuadConvCfg) (bw : ℕ → ℕ → ℝ) :
    (cfg.spatial_dim ≤ 0 →
      quadConvInit cfg bw = Except.error "AssertionError: spatial_dim > 0")
    ∧ (cfg.filter_mode ≠ "single" → cfg.filter_mode ≠ "share_in" →
        cfg.filter_mode ≠ "nested" → 0 < cfg.spatial_dim →
        quadConvInit cfg bw = Except.error (filterModeErrMsg cfg.filter_mode)
        ∧ ∃ pre post, filterModeErrMsg cfg.filter_mode = pre ++ cfg.filter_mode ++ post) := by
  constructor
  · intro h
    unfold quadConvInit
    rw [if_pos h]
  · intro h1 h2 h3 hpos
    refine ⟨?_, "core::modules::quadconv: Filter mode ", " is not supported.", rfl⟩
    unfold quadConvInit
    rw [if_neg (not_le.2 hpos), if_neg (by simp [h1, h2, h3])]

/-- C9 (witness): the errors observed on the two concrete invalid
configurations `cfgBadDim` (spatial dimension 0) and `cfgBadMode`
(mode `"fancy"`). -/
theorem quadconv_construction_errors_witness :
    quadConvInit cfgBadDim bw0 = Except.error "AssertionError: spatial_dim > 0"
    ∧ (quadConvInit cfgBadMode bw0 = Except.error (filterModeErrMsg cfgBadMode.filter_mode)
      ∧ ∃ pre post, filterModeErrMsg cfgBadMode.filter_mode
          = pre ++ cfgBadMode.filter_mode ++ post) :=
  ⟨(quadconv_construction_errors cfgBadDim bw0).1 (by decide),
   (quadconv_construction_errors cfgBadMode bw0).2
     (by decide) (by decide) (by decide) (by decide)⟩

/-- C3 (code bug): with equal offset inputs, modes `single` and `nested`
produce filter outputs of the identical shape
`(num_offsets, in_channels, out_channels) = (2, 2, 3)`, but mode `share_in`
never produces an output: its `H` lambda (quadconv.py line 101) reads the
attributes `self.channels_in` / `self.channels_out`, which `__init__` never
assigns, so the call raises `AttributeError` although construction
succeeded. -/
theorem filter_modes_share_in_crash :
    ((quadConvInit cfgSingleA bw0).toOption.bind fun qc =>
        (applyH qc w0 [[1], [2]]).map fun t => decide (hasShape3 t 2 2 3)) = some true
    ∧ ((quadConvInit cfgNestedA bw0).toOption.bind fun qc =>
        (applyH qc w0 [[1], [2]]).map fun t => decide (hasShape3 t 2 2 3)) = some true
    ∧ (quadConvInit cfgShareInA bw0).toOption.isSome = true
    ∧ ((quadConvInit cfgShareInA bw0).toOption.map fun qc => applyH qc w0 [[1], [2]])
        = some none :=
  ⟨by decide, by decide, by decide, by decide⟩

/-- C7 (code bug): on identical meshes and features, forward returns a
`(batch, out_channels, out_points) = (1, 3, 2)`-shaped output for modes
`single` and `nested` (advancing the mesh level), but for mode `share_in`
forward raises — the trace stops after `mesh.step()` when the filter
evaluation hits the `AttributeError` — so no output of any shape is
produced. -/
theorem forward_share_in_crash :
    ((quadConvInit cfgShareInA bw0).toOption.map fun qc =>
        ((qc.forward w0 meshA featsA).1, (qc.forward w0 meshA featsA).2.isSome)) =
      some ([QEvent.computeIndices, QEvent.weightsLookup, QEvent.meshStep], false)
    ∧ ((quadConvInit cfgSingleA bw0).toOption.bind fun qc =>
        (qc.forward w0 meshA featsA).2.map fun r => (decide (hasShape3 r.1 1 3 2), r.2.level)) =
      some (true, 1)
    ∧ ((quadConvInit cfgNestedA bw0).toOption.bind fun qc =>
        (qc.forward w0 meshA featsA).2.map fun r => (decide (hasShape3 r.1 1 3 2), r.2.level)) =
      some (true, 1) :=
  ⟨by decide, by decide, by decide⟩

/-- C4 (counterexample): with `out_points = 1` the builder does not return a
set of `(i, j)` pairs at all: `tf_vec` has shape `(1, 2, 1)`, `.squeeze()`
collapses it to a rank-1 vector, and `torch.nonzero` returns single-index
rows `[0]` and `[1]` (`forward` would subsequently raise on
`eval_indices[:, 1]`). -/
theorem support_indices_rank_collapse :
    ((quadConvInit cfgOut1 bw0).toOption.bind fun qc => computeEvalIndices qc meshOut1)
      = some (1, [[0], [1]])
    ∧ ∃ row, row ∈ ([[0], [1]] : List (List ℕ)) ∧ ¬ ∃ i j, row = [i, j] :=
  ⟨by decide, [0], by decide, by rintro ⟨i, j, h⟩; simp at h⟩

theorem computeEvalIndices_eq (qc : QuadConv) (mesh : MeshHandle)
    (hin : mesh.inPts.length = qc.in_points)
    (hout : (if qc.output_same then mesh.inPts else mesh.outPts).length = qc.out_points) :
    computeEvalIndices qc mesh =
      some (nonzeroSqueezed qc.out_points qc.in_points fun i j =>
        decide (bumpArgQ (vSub ((if qc.output_same then mesh.inPts else mesh.outPts).getD i [])
          (mesh.inPts.getD j [])) ≤ 1 / qc.decay_param)) := by
  unfold computeEvalIndices
  simp only []
  rw [if_pos ⟨hin, hout⟩, hin, hout]

/-- C4 (amended): whenever both point counts are at least 2 (so the squeeze
leaves a rank-2 tensor) and the point sets match the configured counts, the
builder returns exactly the pairs `(i, j)` with `i < out_points`,
`j < in_points` and `‖output_point i - input_point j‖⁴ ≤ 1/decay_param`
(the output set being the input set when `output_same`); every returned row
is such a pair of valid indices. -/
theorem support_indices_exact (qc : QuadConv) (mesh : MeshHandle)
    (hin : mesh.inPts.length = qc.in_points)
    (hout : (if qc.output_same then mesh.inPts else mesh.outPts).length = qc.out_points)
    (ho1 : qc.out_points ≠ 1) (hi1 : qc.in_points ≠ 1) :
    ∃ rows, computeEvalIndices qc mesh = some (2, rows)
      ∧ (∀ row ∈ rows, ∃ i j, row = [i, j])
      ∧ (∀ i j, [i, j] ∈ rows ↔ i < qc.out_points ∧ j < qc.in_points ∧
          bumpArgR (vSub ((if qc.output_same then mesh.inPts else mesh.outPts).getD i [])
              (mesh.inPts.getD j []))
            ≤ ((1 / qc.decay_param : ℚ) : ℝ)) := by
  have hiff : ∀ (z : List ℚ) (c : ℚ), bumpArgQ z ≤ c ↔ bumpArgR z ≤ ((c : ℚ) : ℝ) := by
    intro z c
    rw [bumpArgR_eq_cast]
    exact_mod_cast Iff.rfl
  refine ⟨((List.range qc.out_points).map fun i =>
      ((List.range qc.in_points).filter fun j =>
        decide (bumpArgQ (vSub ((if qc.output_same then mesh.inPts else mesh.outPts).getD i [])
          (mesh.inPts.getD j [])) ≤ 1 / qc.decay_param)).map fun j => [i, j]).flatten,
    ?_, ?_, ?_⟩
  · rw [computeEvalIndices_eq qc mesh hin hout]
    unfold nonzeroSqueezed
    rw [if_pos ⟨ho1, hi1⟩]
  · intro row hrow
    simp only [List.mem_flatten, List.mem_map] at hrow
    obtain ⟨l, ⟨i, _, rfl⟩, hrl⟩ := hrow
    simp only [List.mem_map] at hrl
    obtain ⟨j, _, rfl⟩ := hrl
    exact ⟨i, j, rfl⟩
  · intro i j
    simp only [List.mem_flatten, List.mem_map]
    constructor
    · rintro ⟨l, ⟨i', hi', rfl⟩, hmem⟩
      simp only [List.mem_map, List.mem_filter, List.mem_range] at hmem hi'
      obtain ⟨j', ⟨hj', htf⟩, heq⟩ := hmem
      have hij : i' = i ∧ j' = j := by
        injection heq with h1 h2
        injection h2 with h2 _
        exact ⟨h1, h2⟩
      obtain ⟨rfl, rfl⟩ := hij
      refine ⟨hi', hj', ?_⟩
      rw [← hiff]
      exact of_decide_eq_true htf
    · rintro ⟨hi, hj, hb⟩
      refine ⟨_, ⟨i, List.mem_range.2 hi, rfl⟩, ?_⟩
      simp only [List.mem_map, List.mem_filter, List.mem_range]
      exact ⟨j, ⟨hj, decide_eq_true ((hiff _ _).2 hb)⟩, rfl⟩

/-- C4 (witness): on `qcPairs`/`meshPairs` (2 output and 2 input points,
decay 1) the support-set characterization holds; the exact set is
`{(0,0), (0,1)}`. -/
theorem support_indices_exact_witness :
    ∃ rows, computeEvalIndices qcPairs meshPairs = some (2, rows)
      ∧ (∀ row ∈ rows, ∃ i j, row = [i, j])
      ∧ (∀ i j, [i, j] ∈ rows ↔ i < qcPairs.out_points ∧ j < qcPairs.in_points ∧
          bumpArgR (vSub ((if qcPairs.output_same then meshPairs.inPts
                else meshPairs.outPts).getD i [])
              (meshPairs.inPts.getD j []))
            ≤ ((1 / qcPairs.decay_param : ℚ) : ℝ)) :=
  support_indices_exact qcPairs meshPairs (by decide) (by decide) (by decide) (by decide)

/-- C8: in every forward call with `output_same` true the mesh handle is
never advanced; in every completed (non-raising) forward call with
`output_same` false, `mesh.step()` is invoked exactly once, and only after
the support-index lookup (the cache read or `_compute_eval_indices`) and the
quadrature-weight lookup for that call are complete. -/
theorem forward_step_discipline (qc : QuadConv) (w : ℕ → ℕ → ℕ → ℕ → ℝ)
    (mesh : MeshHandle) (features : List (List (List ℚ))) :
    (qc.output_same = true → QEvent.meshStep ∉ (qc.forward w mesh features).1)
    ∧ (qc.output_same = false → (qc.forward w mesh features).2.isSome = true →
        ((qc.forward w mesh features).1.count QEvent.meshStep = 1
        ∧ ∃ pre post, (qc.forward w mesh features).1 = pre ++ QEvent.meshStep :: post
            ∧ QEvent.weightsLookup ∈ pre
            ∧ (qc.cached = false → QEvent.computeIndices ∈ pre)
            ∧ QEvent.meshStep ∉ pre ∧ QEvent.meshStep ∉ post)) := by
  constructor
  · intro hsame
    unfold QuadConv.forward
    cases hc : qc.cached
    · simp only [hc, Bool.false_eq_true, if_false]
      cases hce : computeEvalIndices qc mesh with
      | none => simp
      | some v =>
        obtain ⟨rank, idx⟩ := v
        simp only [hsame, if_true]
        repeat' split
        all_goals simp
    · simp only [hc, if_true]
      obtain ⟨rank, idx⟩ := qc.evalIndices
      simp only [hsame, if_true]
      repeat' split
      all_goals simp
  · intro hsame hsome
    obtain ⟨tr, res, hfr⟩ : ∃ tr res, qc.forward w mesh features = (tr, res) := ⟨_, _, rfl⟩
    rw [hfr] at hsome ⊢
    simp only at hsome ⊢
    unfold QuadConv.forward at hfr
    cases hc : qc.cached
    · rw [hc] at hfr
      simp only [Bool.false_eq_true, if_false] at hfr
      cases hce : computeEvalIndices qc mesh with
      | none =>
        simp only [hce] at hfr
        injection hfr with htr hres
        subst htr; subst hres
        simp at hsome
      | some v =>
        obtain ⟨rank, idx⟩ := v
        simp only [hce, hsame, Bool.false_eq_true, if_false] at hfr
        repeat' split at hfr
        all_goals (injection hfr with htr hres; subst htr; subst hres)
        all_goals first
        | exact ⟨by decide,
            ⟨[QEvent.computeIndices, QEvent.weightsLookup],
              [QEvent.filterEval, QEvent.scatterAdd], by decide, by decide,
              fun _ => by decide, by decide, by decide⟩⟩
        | simp at hsome
    · rw [hc] at hfr
      simp only [if_true] at hfr
      simp only [hsame, Bool.false_eq_true, if_false] at hfr
      repeat' split at hfr
      all_goals (injection hfr with htr hres; subst htr; subst hres)
      all_goals first
      | exact ⟨by decide,
          ⟨[QEvent.weightsLookup], [QEvent.filterEval, QEvent.scatterAdd],
            by decide, by decide, fun hcf => absurd hcf (by decide),
            by decide, by decide⟩⟩
      | simp at hsome

/-- C8 (witness): the discipline observed on two concrete calls — the
`output_same` operator `qcSameA` never advances the mesh, and a completed
call of `qcSingleA` advances it exactly once, after both lookups. -/
theorem forward_step_discipline_witness :
    QEvent.meshStep ∉ (qcSameA.forward w0 meshA featsA).1
    ∧ ((qcSingleA.forward w0 meshA featsA).1.count QEvent.meshStep = 1
      ∧ ∃ pre post, (qcSingleA.forward w0 meshA featsA).1 = pre ++ QEvent.meshStep :: post
          ∧ QEvent.weightsLookup ∈ pre
          ∧ (qcSingleA.cached = false → QEvent.computeIndices ∈ pre)
          ∧ QEvent.meshStep ∉ pre ∧ QEvent.meshStep ∉ post) :=
  ⟨(forward_step_discipline qcSameA w0 meshA featsA).1 (by decide),
   (forward_step_discipline qcSingleA w0 meshA featsA).2 (by decide) (by decide)⟩
